import Mathlib

/-!
Shallow embedding of the two PyMAPDL notebooks in this repository
(`lesson2.ipynb`: a 2D plane-strain pipe convergence study, followed by a
3D plate-with-holes model).  The notebooks drive an external MAPDL solver
through remote commands; we model each client-library call as a `Cmd`
value, the solver as an oracle mapping the issued command trace to its
observable replies, and the notebook code as pure functions producing
command traces and collecting results.
-/

/-- Numeric values appearing as command arguments.  Python floats are
modelled exactly: `rat q` is the rational `q`, and `pow10 q` encodes the
irrational `10 ^ q` produced by `np.logspace` (kept symbolic so that the
embedding stays executable and has decidable equality). -/
inductive RVal : Type
  | rat (q : ℚ)
  | pow10 (q : ℚ)
deriving DecidableEq, Repr

/-- The remote client-library calls issued by the notebooks, one
constructor per distinct API entry point used, carrying the arguments the
notebooks pass.  `queryNodalEqvStress` and `queryNnumAll` are the
result queries `mapdl.post_processing.nodal_eqv_stress()` and
`mapdl.mesh.nnum_all`. -/
inductive Cmd : Type
  | launch
  | clear
  | prep7
  | et (itype : Nat) (ename : String) (kop3 : Option Nat)
  | pcirc (rad1 rad2 theta1 theta2 : RVal)
  | cm (cname ctype : String)
  | mp (lab : String) (mat : Nat) (value : RVal)
  | aesize (anum : String) (size : RVal)
  | mshape (key : Nat) (dim : String)
  | mshkey (key : Nat)
  | cmsel (stype cname : String)
  | amesh (a : String)
  | nsel (stype item comp : String) (vmin : RVal)
  | allsel
  | lsel (stype item : String) (vmin : RVal)
  | slashsolu
  | antype (atype status : String)
  | d (node lab : String) (value : RVal)
  | csys (kcn : Nat)
  | sfl (line lab : String) (value : RVal)
  | sf (nlist lab : String) (value : RVal)
  | solve
  | finish
  | post1
  | set (lstep sbstep : Nat)
  | queryNodalEqvStress
  | queryNnumAll
  | eplot
  | vplot
  | plotNodalDisplacement
  | plotNodalEqvStress
  | resultPlot
  | block (x1 x2 y1 y2 z1 z2 : RVal)
  | cyl4 (xcenter ycenter radius depth : RVal)
  | vsbv (nv1 : Nat) (nv2 : String)
  | lesize (nl1 : String) (size : RVal) (layer1 : Nat)
  | vmesh (v : String)
  | exit
deriving DecidableEq, Repr

/-- `np.linspace(start, stop, num)` with its default inclusive endpoint,
as used by `np.logspace`. -/
def linspace (start stop : ℚ) (num : Nat) : List ℚ :=
  (List.range num).map (fun i => start + (stop - start) * i / ((num : ℚ) - 1))

/-- `np.logspace(start, stop, num)`: `10 ^ x` for each linspace sample,
encoded symbolically by `RVal.pow10`. -/
def logspace (start stop : ℚ) (num : Nat) : List RVal :=
  (linspace start stop num).map RVal.pow10

/-- `esizes = np.logspace(1.4, 0, 20)` from the convergence-study cell. -/
def esizes : List RVal := logspace (7/5) 0 20

/-- The command trace issued by one call of
`pipe_plane_strain(e, nu, inn_radius, out_radius, press, AESIZE)`.
`rad1` is the module-level global read by the `mapdl.lsel` call inside the
function body; every other argument is a declared parameter.  The
commands appear in the source order of the function body. -/
def pipeCmds (rad1 e nu inn_radius out_radius press AESIZE : RVal) : List Cmd :=
  [ .clear,
    .prep7,
    .et 1 "PLANE182" (some 2),
    .pcirc inn_radius out_radius (.rat 0) (.rat 90),
    .cm "PIPE_PROFILE" "AREA",
    .mp "EX" 1 e,
    .mp "PRXY" 1 nu,
    .aesize "ALL" AESIZE,
    .mshape 0 "2D",
    .mshkey 1,
    .cmsel "S" "PIPE_PROFILE",
    .amesh "ALL",
    .nsel "S" "LOC" "X" (.rat 0),
    .cm "X_FIXED" "NODES",
    .nsel "S" "LOC" "Y" (.rat 0),
    .cm "Y_FIXED" "NODES",
    .allsel,
    .lsel "S" "RADIUS" rad1,
    .cm "PRESSURE_EDGE" "LINE",
    .allsel,
    .slashsolu,
    .antype "STATIC" "NEW",
    .d "X_FIXED" "UX" (.rat 0),
    .d "Y_FIXED" "UY" (.rat 0),
    .csys 1,
    .sfl "PRESSURE_EDGE" "PRES" press,
    .allsel,
    .solve,
    .finish,
    .post1,
    .set 1 1,
    .queryNodalEqvStress,
    .queryNnumAll ]

/-- The API entry-point name of a command, forgetting its arguments. -/
def cmdName : Cmd → String
  | .launch => "launch_mapdl"
  | .clear => "clear"
  | .prep7 => "prep7"
  | .et _ _ _ => "et"
  | .pcirc _ _ _ _ => "pcirc"
  | .cm _ _ => "cm"
  | .mp _ _ _ => "mp"
  | .aesize _ _ => "aesize"
  | .mshape _ _ => "mshape"
  | .mshkey _ => "mshkey"
  | .cmsel _ _ => "cmsel"
  | .amesh _ => "amesh"
  | .nsel _ _ _ _ => "nsel"
  | .allsel => "allsel"
  | .lsel _ _ _ => "lsel"
  | .slashsolu => "slashsolu"
  | .antype _ _ => "antype"
  | .d _ _ _ => "d"
  | .csys _ => "csys"
  | .sfl _ _ _ => "sfl"
  | .sf _ _ _ => "sf"
  | .solve => "solve"
  | .finish => "finish"
  | .post1 => "post1"
  | .set _ _ => "set"
  | .queryNodalEqvStress => "nodal_eqv_stress"
  | .queryNnumAll => "nnum_all"
  | .eplot => "eplot"
  | .vplot => "vplot"
  | .plotNodalDisplacement => "plot_nodal_displacement"
  | .plotNodalEqvStress => "plot_nodal_eqv_stress"
  | .resultPlot => "plot_principal_nodal_stress"
  | .block _ _ _ _ _ _ => "block"
  | .cyl4 _ _ _ _ => "cyl4"
  | .vsbv _ _ => "vsbv"
  | .lesize _ _ _ => "lesize"
  | .vmesh _ => "vmesh"
  | .exit => "exit"

/-- C3: for every tuple of inputs, `pipe_plane_strain` issues the same
fixed sequence of commands in the same order (clear, prep7, et, pcirc,
cm, mp, mp, aesize, mshape, mshkey, cmsel, amesh, nsel, cm, nsel, cm,
allsel, lsel, cm, allsel, slashsolu, antype, d, d, csys, sfl, allsel,
solve, finish, post1, set, then the two result queries); only the
arguments depend on the inputs, and no command is conditionally skipped
or repeated. -/
theorem pipe_fixed_command_sequence (rad1 e nu inn_radius out_radius press AESIZE : RVal) :
    (pipeCmds rad1 e nu inn_radius out_radius press AESIZE).map cmdName =
      ["clear", "prep7", "et", "pcirc", "cm", "mp", "mp", "aesize", "mshape",
       "mshkey", "cmsel", "amesh", "nsel", "cm", "nsel", "cm", "allsel",
       "lsel", "cm", "allsel", "slashsolu", "antype", "d", "d", "csys",
       "sfl", "allsel", "solve", "finish", "post1", "set",
       "nodal_eqv_stress", "nnum_all"] := rfl

/-- The external MAPDL solver, modelled as a deterministic oracle over the
command trace issued so far in the session.  `raises t c` says whether
the client call `c`, issued after trace `t`, raises an exception;
`nodal_eqv_stress t` is the nodal equivalent-stress array the query
returns after trace `t`, and `nnum_all_size t` is the size of the
`mapdl.mesh.nnum_all` node-identifier array after trace `t`. -/
structure Solver : Type where
  raises : List Cmd → Cmd → Bool
  nodal_eqv_stress : List Cmd → List ℚ
  nnum_all_size : List Cmd → Nat

/-- An exception escaping a notebook computation: either a client call
raised (carrying the trace issued so far and the offending command), or
`np.max` was applied to an empty array. -/
inductive PipeErr : Type
  | raised (t : List Cmd) (c : Cmd)
  | emptyMax (t : List Cmd)
deriving DecidableEq, Repr

/-- Issue a list of commands in order after the already-issued trace
`pre`.  Each command either raises — in which case execution halts at
once with the trace issued so far — or is appended to the trace. -/
def runSeq (s : Solver) : List Cmd → List Cmd → Except (List Cmd × Cmd) (List Cmd)
  | pre, [] => .ok pre
  | pre, c :: rest =>
      if s.raises pre c then .error (pre, c) else runSeq s (pre ++ [c]) rest

/-- `np.max` on a float array: raises (`none`) on an empty array,
otherwise folds binary `max` over the elements. -/
def npMax : List ℚ → Option ℚ
  | [] => none
  | a :: l => some (l.foldl max a)

/-- `pipe_plane_strain(e, nu, inn_radius, out_radius, press, AESIZE)`:
issue the fixed command trace, then compute
`max_eqv_stress = np.max(...nodal_eqv_stress())` and
`num_dof = 2 * mapdl.mesh.nnum_all.size`, returning the pair
`(num_dof, max_eqv_stress)` together with the session trace after the
call.  `rad1` is the global read inside the body; `pre` is the session
trace already issued before this call.  Any exception propagates (there
is no handler in the source). -/
def pipe_plane_strain (s : Solver) (rad1 e nu inn_radius out_radius press AESIZE : RVal)
    (pre : List Cmd) : Except PipeErr (List Cmd × Nat × ℚ) :=
  match runSeq s pre (pipeCmds rad1 e nu inn_radius out_radius press AESIZE) with
  | .error tc => .error (.raised tc.1 tc.2)
  | .ok t =>
      match npMax (s.nodal_eqv_stress t) with
      | none => .error (.emptyMax t)
      | some m => .ok (t, 2 * s.nnum_all_size t, m)

/-- The convergence-sweep loop
`for esize in esizes: dof, eqv_stress = pipe_plane_strain(...); num_dof.append(dof); max_stress.append(eqv_stress)`:
fold over the remaining element sizes, threading the session trace and
the two accumulator lists; an exception from any iteration propagates
and halts the loop. -/
def sweepRun (s : Solver) (rad1 e nu inn_radius out_radius press : RVal) :
    List RVal → List Cmd → List Nat → List ℚ →
      Except PipeErr (List Cmd × List Nat × List ℚ)
  | [], pre, dofs, stresses => .ok (pre, dofs, stresses)
  | z :: rest, pre, dofs, stresses =>
      match pipe_plane_strain s rad1 e nu inn_radius out_radius press z pre with
      | .error err => .error err
      | .ok (t, dof, m) =>
          sweepRun s rad1 e nu inn_radius out_radius press rest t
            (dofs ++ [dof]) (stresses ++ [m])

/-- Concatenated command trace of a list of sweep iterations. -/
def catTrace (f : RVal → List Cmd) : List RVal → List Cmd
  | [] => []
  | z :: rest => f z ++ catTrace f rest

/-- The successive `num_dof` outputs of the sweep, as pure functions of
the solver oracle: iteration on element size `z` after trace `pre`
contributes `2 * nnum_all_size (pre ++ pipeCmds ... z)`. -/
def runDofs (s : Solver) (rad1 e nu inn_radius out_radius press : RVal) :
    List RVal → List Cmd → List Nat
  | [], _ => []
  | z :: rest, pre =>
      2 * s.nnum_all_size (pre ++ pipeCmds rad1 e nu inn_radius out_radius press z)
        :: runDofs s rad1 e nu inn_radius out_radius press rest
             (pre ++ pipeCmds rad1 e nu inn_radius out_radius press z)

/-- The successive `max_eqv_stress` outputs of the sweep. -/
def runStresses (s : Solver) (rad1 e nu inn_radius out_radius press : RVal) :
    List RVal → List Cmd → List ℚ
  | [], _ => []
  | z :: rest, pre =>
      (npMax (s.nodal_eqv_stress
          (pre ++ pipeCmds rad1 e nu inn_radius out_radius press z))).getD 0
        :: runStresses s rad1 e nu inn_radius out_radius press rest
             (pre ++ pipeCmds rad1 e nu inn_radius out_radius press z)

/-- If no command raises, `runSeq` succeeds and the resulting trace is
the prior trace followed by exactly the issued commands. -/
theorem runSeq_ok_of_noraise (s : Solver) (h : ∀ t c, s.raises t c = false) :
    ∀ cs pre, runSeq s pre cs = .ok (pre ++ cs) := by
  intro cs
  induction cs with
  | nil => intro pre; simp [runSeq]
  | cons c rest ih =>
      intro pre
      simp [runSeq, h, ih (pre ++ [c])]

/-- A successful `runSeq` run issues exactly the given commands after the
prior trace. -/
theorem runSeq_ok_spec (s : Solver) :
    ∀ cs pre t, runSeq s pre cs = .ok t → t = pre ++ cs := by
  intro cs
  induction cs with
  | nil => intro pre t h; simpa [runSeq] using h.symm
  | cons c rest ih =>
      intro pre t h
      by_cases hr : s.raises pre c
      · simp [runSeq, hr] at h
      · rw [runSeq, if_neg hr] at h
        simpa using ih (pre ++ [c]) t h

/-- A failing `runSeq` run halts at the first raising command: the
exception is the raised one, and the issued trace consists of the prior
trace plus exactly the commands before the offending one — nothing after
it is issued. -/
theorem runSeq_error_spec (s : Solver) :
    ∀ cs pre t c, runSeq s pre cs = .error (t, c) →
      s.raises t c = true ∧
        ∃ done rest, cs = done ++ c :: rest ∧ t = pre ++ done := by
  intro cs
  induction cs with
  | nil => intro pre t c h; simp [runSeq] at h
  | cons c0 rest ih =>
      intro pre t c h
      by_cases hr : s.raises pre c0
      · rw [runSeq, if_pos hr] at h
        injection h with h'
        have h1 : pre = t := congrArg Prod.fst h'
        have h2 : c0 = c := congrArg Prod.snd h'
        subst h1; subst h2
        exact ⟨hr, [], rest, rfl, by simp⟩
      · rw [runSeq, if_neg hr] at h
        obtain ⟨hra, done, rest', hsplit, ht⟩ := ih (pre ++ [c0]) t c h
        exact ⟨hra, c0 :: done, rest', by simp [hsplit], by simp [ht]⟩

/-- Folding binary `max` over a list starting from `a` yields an element
of `a :: l` that bounds every element of `a :: l`. -/
theorem foldl_max_spec :
    ∀ (l : List ℚ) (a : ℚ),
      l.foldl max a ∈ a :: l ∧ ∀ x ∈ a :: l, x ≤ l.foldl max a := by
  intro l
  induction l with
  | nil => intro a; simp
  | cons b l ih =>
      intro a
      have h := ih (max a b)
      have hmem : l.foldl max (max a b) = max a b ∨ l.foldl max (max a b) ∈ l :=
        List.mem_cons.mp h.1
      have hble : max a b ≤ l.foldl max (max a b) :=
        h.2 _ (List.mem_cons_self _ _)
      constructor
      · rw [List.foldl_cons, List.mem_cons, List.mem_cons]
        rcases hmem with hm | hm
        · rcases max_choice a b with hc | hc
          · exact Or.inl (hm.trans hc)
          · exact Or.inr (Or.inl (hm.trans hc))
        · exact Or.inr (Or.inr hm)
      · intro x hx
        rw [List.foldl_cons]
        rcases List.mem_cons.mp hx with hx1 | hx1
        · calc x = a := hx1
            _ ≤ max a b := le_max_left a b
            _ ≤ _ := hble
        · rcases List.mem_cons.mp hx1 with hx2 | hx2
          · calc x = b := hx2
              _ ≤ max a b := le_max_right a b
              _ ≤ _ := hble
          · exact h.2 x (List.mem_cons_of_mem _ hx2)

/-- `np.max` returns a maximum: an element of the array that bounds all
entries. -/
theorem npMax_spec (l : List ℚ) (m : ℚ) (h : npMax l = some m) :
    m ∈ l ∧ ∀ x ∈ l, x ≤ m := by
  cases l with
  | nil => simp [npMax] at h
  | cons a r =>
      simp only [npMax, Option.some.injEq] at h
      exact h ▸ foldl_max_spec r a

/-- C2: whenever the issued commands all succeed and the stress array is
nonempty, `pipe_plane_strain` returns the pair `(num_dof, max_eqv_stress)`
with `num_dof = 2 * mapdl.mesh.nnum_all.size` in the first component, and
`max_eqv_stress` the maximum of the nodal equivalent-stress array queried
after `mapdl.set(1, 1)` selected load step 1. -/
theorem pipe_returns_dof_and_max (s : Solver)
    (rad1 e nu inn_radius out_radius press AESIZE : RVal) (pre t : List Cmd)
    (hok : runSeq s pre (pipeCmds rad1 e nu inn_radius out_radius press AESIZE) = .ok t)
    (hne : s.nodal_eqv_stress t ≠ []) :
    ∃ m, pipe_plane_strain s rad1 e nu inn_radius out_radius press AESIZE pre =
        .ok (t, 2 * s.nnum_all_size t, m) ∧
      m ∈ s.nodal_eqv_stress t ∧ (∀ x ∈ s.nodal_eqv_stress t, x ≤ m) ∧
      (pipeCmds rad1 e nu inn_radius out_radius press AESIZE).getD 30 .clear = .set 1 1 ∧
      (pipeCmds rad1 e nu inn_radius out_radius press AESIZE).getD 31 .clear =
        .queryNodalEqvStress := by
  have hm : ∃ m, npMax (s.nodal_eqv_stress t) = some m := by
    cases hl : s.nodal_eqv_stress t with
    | nil => exact absurd hl hne
    | cons a r => exact ⟨r.foldl max a, by simp [npMax]⟩
  obtain ⟨m, hm⟩ := hm
  refine ⟨m, ?_, (npMax_spec _ m hm).1, (npMax_spec _ m hm).2, rfl, rfl⟩
  unfold pipe_plane_strain
  rw [hok]
  show (match npMax (s.nodal_eqv_stress t) with
    | none => Except.error (PipeErr.emptyMax t)
    | some m => Except.ok (t, 2 * s.nnum_all_size t, m)) =
      Except.ok (t, 2 * s.nnum_all_size t, m)
  rw [hm]

/-- A benign solver used to exercise the theorems on concrete inputs: no
call raises, the stress query always returns the two-entry array
`[1, 2]`, and the node-identifier array always has 28 entries. -/
def okSolver : Solver where
  raises := fun _ _ => false
  nodal_eqv_stress := fun _ => [1, 2]
  nnum_all_size := fun _ => 28

/-- The `pipe_plane_strain` trace at the parameter values of the
convergence-study cell: global `rad1 = 175`, `e = 2e5`, `nu = 0.3`,
`inn_radius = rad1 = 175`, `out_radius = rad2 = 200`,
`press = pressure = 100`, with element size `z`. -/
def nb1Trace (z : RVal) : List Cmd :=
  pipeCmds (.rat 175) (.rat 200000) (.rat (3/10)) (.rat 175) (.rat 200) (.rat 100) z

theorem pipe_returns_dof_and_max_witness :
    runSeq okSolver [] (nb1Trace (.rat 10)) = .ok (nb1Trace (.rat 10)) ∧
      okSolver.nodal_eqv_stress (nb1Trace (.rat 10)) ≠ [] ∧
      ∃ m, pipe_plane_strain okSolver (.rat 175) (.rat 200000) (.rat (3/10))
          (.rat 175) (.rat 200) (.rat 100) (.rat 10) [] =
          .ok (nb1Trace (.rat 10), 2 * okSolver.nnum_all_size (nb1Trace (.rat 10)), m) ∧
        m ∈ okSolver.nodal_eqv_stress (nb1Trace (.rat 10)) ∧
        (∀ x ∈ okSolver.nodal_eqv_stress (nb1Trace (.rat 10)), x ≤ m) ∧
        (nb1Trace (.rat 10)).getD 30 .clear = .set 1 1 ∧
        (nb1Trace (.rat 10)).getD 31 .clear = .queryNodalEqvStress :=
  ⟨by simpa using runSeq_ok_of_noraise okSolver (fun _ _ => rfl) (nb1Trace (.rat 10)) [],
   by simp [okSolver],
   pipe_returns_dof_and_max okSolver (.rat 175) (.rat 200000) (.rat (3/10))
     (.rat 175) (.rat 200) (.rat 100) (.rat 10) [] (nb1Trace (.rat 10))
     (by simpa using runSeq_ok_of_noraise okSolver (fun _ _ => rfl) (nb1Trace (.rat 10)) [])
     (by simp [okSolver])⟩

/-- On a nonempty array `np.max` succeeds, returning its `getD 0` value. -/
theorem npMax_eq_some_of_ne_nil (l : List ℚ) (h : l ≠ []) :
    npMax l = some ((npMax l).getD 0) := by
  cases l with
  | nil => exact absurd rfl h
  | cons a r => rfl

/-- Under a solver that never raises and always reports a nonempty stress
array, one `pipe_plane_strain` call succeeds, extends the session trace by
exactly its fixed command list, and returns the DOF count and stress
maximum read off the oracle at the extended trace. -/
theorem pipe_plane_strain_ok (s : Solver)
    (hraise : ∀ t c, s.raises t c = false)
    (hne : ∀ t, s.nodal_eqv_stress t ≠ [])
    (rad1 e nu inn_radius out_radius press AESIZE : RVal) (pre : List Cmd) :
    pipe_plane_strain s rad1 e nu inn_radius out_radius press AESIZE pre =
      .ok (pre ++ pipeCmds rad1 e nu inn_radius out_radius press AESIZE,
        2 * s.nnum_all_size (pre ++ pipeCmds rad1 e nu inn_radius out_radius press AESIZE),
        (npMax (s.nodal_eqv_stress
          (pre ++ pipeCmds rad1 e nu inn_radius out_radius press AESIZE))).getD 0) := by
  unfold pipe_plane_strain
  rw [runSeq_ok_of_noraise s hraise]
  show (match npMax (s.nodal_eqv_stress
      (pre ++ pipeCmds rad1 e nu inn_radius out_radius press AESIZE)) with
    | none => Except.error (PipeErr.emptyMax
        (pre ++ pipeCmds rad1 e nu inn_radius out_radius press AESIZE))
    | some m => Except.ok
        (pre ++ pipeCmds rad1 e nu inn_radius out_radius press AESIZE,
         2 * s.nnum_all_size (pre ++ pipeCmds rad1 e nu inn_radius out_radius press AESIZE),
         m)) = _
  rw [npMax_eq_some_of_ne_nil _ (hne _)]
  rfl

/-- Under a never-raising solver with nonempty stress arrays, the sweep
loop runs every remaining iteration, extends the trace by the
concatenation of the per-iteration command lists, and appends one DOF
count and one stress value per iteration to the accumulators. -/
theorem sweepRun_ok_eq (s : Solver)
    (hraise : ∀ t c, s.raises t c = false)
    (hne : ∀ t, s.nodal_eqv_stress t ≠ [])
    (rad1 e nu inn_radius out_radius press : RVal) :
    ∀ (es : List RVal) (pre : List Cmd) (dofs : List Nat) (stresses : List ℚ),
      sweepRun s rad1 e nu inn_radius out_radius press es pre dofs stresses =
        .ok (pre ++ catTrace (pipeCmds rad1 e nu inn_radius out_radius press) es,
             dofs ++ runDofs s rad1 e nu inn_radius out_radius press es pre,
             stresses ++ runStresses s rad1 e nu inn_radius out_radius press es pre) := by
  intro es
  induction es with
  | nil => intro pre dofs stresses; simp [sweepRun, catTrace, runDofs, runStresses]
  | cons z rest ih =>
      intro pre dofs stresses
      rw [sweepRun,
        pipe_plane_strain_ok s hraise hne rad1 e nu inn_radius out_radius press z pre]
      show sweepRun s rad1 e nu inn_radius out_radius press rest
          (pre ++ pipeCmds rad1 e nu inn_radius out_radius press z)
          (dofs ++ [2 * s.nnum_all_size
            (pre ++ pipeCmds rad1 e nu inn_radius out_radius press z)])
          (stresses ++ [(npMax (s.nodal_eqv_stress
            (pre ++ pipeCmds rad1 e nu inn_radius out_radius press z))).getD 0]) = _
      rw [ih (pre ++ pipeCmds rad1 e nu inn_radius out_radius press z)]
      simp [catTrace, runDofs, runStresses, List.append_assoc]

/-- The sweep records one DOF count per element size. -/
theorem runDofs_length (s : Solver) (rad1 e nu inn_radius out_radius press : RVal) :
    ∀ (es : List RVal) (pre : List Cmd),
      (runDofs s rad1 e nu inn_radius out_radius press es pre).length = es.length := by
  intro es
  induction es with
  | nil => intro pre; rfl
  | cons z rest ih => intro pre; simp [runDofs, ih]

/-- The sweep records one peak-stress value per element size. -/
theorem runStresses_length (s : Solver) (rad1 e nu inn_radius out_radius press : RVal) :
    ∀ (es : List RVal) (pre : List Cmd),
      (runStresses s rad1 e nu inn_radius out_radius press es pre).length = es.length := by
  intro es
  induction es with
  | nil => intro pre; rfl
  | cons z rest ih => intro pre; simp [runStresses, ih]

/-- The i-th entries of the collected lists are exactly the pair returned
by the i-th `pipe_plane_strain` invocation, which runs after the traces of
the previous iterations. -/
theorem sweep_ith (s : Solver)
    (hraise : ∀ t c, s.raises t c = false)
    (hne : ∀ t, s.nodal_eqv_stress t ≠ [])
    (rad1 e nu inn_radius out_radius press : RVal) :
    ∀ (es : List RVal) (pre : List Cmd) (i : Nat), i < es.length →
      pipe_plane_strain s rad1 e nu inn_radius out_radius press (es.getD i (.rat 0))
          (pre ++ catTrace (pipeCmds rad1 e nu inn_radius out_radius press) (es.take i)) =
        .ok (pre ++ catTrace (pipeCmds rad1 e nu inn_radius out_radius press) (es.take (i+1)),
             (runDofs s rad1 e nu inn_radius out_radius press es pre).getD i 0,
             (runStresses s rad1 e nu inn_radius out_radius press es pre).getD i 0) := by
  intro es
  induction es with
  | nil => intro pre i h; simp at h
  | cons z rest ih =>
      intro pre i h
      cases i with
      | zero =>
          simp only [List.getD_cons_zero, List.take_zero, catTrace, List.append_nil]
          rw [pipe_plane_strain_ok s hraise hne rad1 e nu inn_radius out_radius press z]
          simp [catTrace, runDofs, runStresses, List.take_succ_cons]
      | succ i =>
          have hi : i < rest.length := by simpa using h
          have := ih (pre ++ pipeCmds rad1 e nu inn_radius out_radius press z) i hi
          simpa [catTrace, runDofs, runStresses, List.append_assoc] using this

/-- C1: under normal operation (no client call raises, stress arrays
nonempty), the convergence-sweep driver invokes `pipe_plane_strain` once
per element size of `esizes = np.logspace(1.4, 0, 20)`, in order: the
loop succeeds, both collected lists have length 20, and for each `i < 20`
the i-th invocation — run after the traces of the previous iterations —
returns exactly the i-th entries of `num_dof` and `max_stress`. -/
theorem convergence_sweep_collects (s : Solver)
    (hraise : ∀ t c, s.raises t c = false)
    (hne : ∀ t, s.nodal_eqv_stress t ≠ [])
    (rad1 e nu inn_radius out_radius press : RVal) :
    esizes.length = 20 ∧
    sweepRun s rad1 e nu inn_radius out_radius press esizes [] [] [] =
      .ok (catTrace (pipeCmds rad1 e nu inn_radius out_radius press) esizes,
           runDofs s rad1 e nu inn_radius out_radius press esizes [],
           runStresses s rad1 e nu inn_radius out_radius press esizes []) ∧
    (runDofs s rad1 e nu inn_radius out_radius press esizes []).length = 20 ∧
    (runStresses s rad1 e nu inn_radius out_radius press esizes []).length = 20 ∧
    ∀ i, i < 20 →
      pipe_plane_strain s rad1 e nu inn_radius out_radius press (esizes.getD i (.rat 0))
          (catTrace (pipeCmds rad1 e nu inn_radius out_radius press) (esizes.take i)) =
        .ok (catTrace (pipeCmds rad1 e nu inn_radius out_radius press) (esizes.take (i+1)),
             (runDofs s rad1 e nu inn_radius out_radius press esizes []).getD i 0,
             (runStresses s rad1 e nu inn_radius out_radius press esizes []).getD i 0) := by
  have hlen : esizes.length = 20 := rfl
  refine ⟨hlen, ?_, ?_, ?_, ?_⟩
  · simpa using sweepRun_ok_eq s hraise hne rad1 e nu inn_radius out_radius press esizes [] [] []
  · rw [runDofs_length]; exact hlen
  · rw [runStresses_length]; exact hlen
  · intro i hi
    have := sweep_ith s hraise hne rad1 e nu inn_radius out_radius press esizes [] i
      (by rw [hlen]; exact hi)
    simpa using this

theorem convergence_sweep_collects_witness :
    (∀ t c, okSolver.raises t c = false) ∧
    (∀ t, okSolver.nodal_eqv_stress t ≠ []) ∧
    (esizes.length = 20 ∧
      sweepRun okSolver (.rat 175) (.rat 200000) (.rat (3/10)) (.rat 175) (.rat 200)
          (.rat 100) esizes [] [] [] =
        .ok (catTrace nb1Trace esizes,
             runDofs okSolver (.rat 175) (.rat 200000) (.rat (3/10)) (.rat 175) (.rat 200)
               (.rat 100) esizes [],
             runStresses okSolver (.rat 175) (.rat 200000) (.rat (3/10)) (.rat 175) (.rat 200)
               (.rat 100) esizes []) ∧
      (runDofs okSolver (.rat 175) (.rat 200000) (.rat (3/10)) (.rat 175) (.rat 200)
        (.rat 100) esizes []).length = 20 ∧
      (runStresses okSolver (.rat 175) (.rat 200000) (.rat (3/10)) (.rat 175) (.rat 200)
        (.rat 100) esizes []).length = 20 ∧
      ∀ i, i < 20 →
        pipe_plane_strain okSolver (.rat 175) (.rat 200000) (.rat (3/10)) (.rat 175)
            (.rat 200) (.rat 100) (esizes.getD i (.rat 0))
            (catTrace nb1Trace (esizes.take i)) =
          .ok (catTrace nb1Trace (esizes.take (i+1)),
               (runDofs okSolver (.rat 175) (.rat 200000) (.rat (3/10)) (.rat 175) (.rat 200)
                 (.rat 100) esizes []).getD i 0,
               (runStresses okSolver (.rat 175) (.rat 200000) (.rat (3/10)) (.rat 175)
                 (.rat 200) (.rat 100) esizes []).getD i 0)) :=
  ⟨fun _ _ => rfl, fun _ => by simp [okSolver],
   convergence_sweep_collects okSolver (fun _ _ => rfl) (fun _ => by simp [okSolver])
     (.rat 175) (.rat 200000) (.rat (3/10)) (.rat 175) (.rat 200) (.rat 100)⟩

/-- C4: `pipe_plane_strain` is not a function of its declared parameters
alone: the `mapdl.lsel("S", "RADIUS", vmin=rad1)` call reads the
module-level global `rad1`, so two calls with identical arguments but
different globals issue different command sequences, while changing the
`inn_radius` argument alone leaves the issued `lsel` command (position 17
of the trace) unchanged. -/
theorem lsel_reads_global_rad1
    (rad1 rad1a e nu inn_radius inn_radiusa out_radius press AESIZE : RVal)
    (h : rad1 ≠ rad1a) :
    pipeCmds rad1 e nu inn_radius out_radius press AESIZE ≠
      pipeCmds rad1a e nu inn_radius out_radius press AESIZE ∧
    (pipeCmds rad1 e nu inn_radius out_radius press AESIZE).getD 17 .clear =
      .lsel "S" "RADIUS" rad1 ∧
    (pipeCmds rad1 e nu inn_radius out_radius press AESIZE).getD 17 .clear =
      (pipeCmds rad1 e nu inn_radiusa out_radius press AESIZE).getD 17 .clear := by
  refine ⟨?_, rfl, rfl⟩
  intro heq
  rw [pipeCmds, pipeCmds] at heq
  simp only [List.cons.injEq, Cmd.lsel.injEq] at heq
  exact h heq.2.2.2.2.2.2.2.2.2.2.2.2.2.2.2.2.2.1.2.2

theorem lsel_reads_global_rad1_witness :
    (RVal.rat 175 ≠ RVal.rat 300) ∧
    pipeCmds (.rat 175) (.rat 200000) (.rat (3/10)) (.rat 175) (.rat 200) (.rat 100) (.rat 10) ≠
      pipeCmds (.rat 300) (.rat 200000) (.rat (3/10)) (.rat 175) (.rat 200) (.rat 100) (.rat 10) ∧
    (pipeCmds (.rat 175) (.rat 200000) (.rat (3/10)) (.rat 175) (.rat 200) (.rat 100)
        (.rat 10)).getD 17 .clear = .lsel "S" "RADIUS" (.rat 175) ∧
    (pipeCmds (.rat 175) (.rat 200000) (.rat (3/10)) (.rat 175) (.rat 200) (.rat 100)
        (.rat 10)).getD 17 .clear =
      (pipeCmds (.rat 175) (.rat 200000) (.rat (3/10)) (.rat 300) (.rat 200) (.rat 100)
        (.rat 10)).getD 17 .clear :=
  ⟨by decide,
   (lsel_reads_global_rad1 (.rat 175) (.rat 300) (.rat 200000) (.rat (3/10)) (.rat 175)
     (.rat 300) (.rat 200) (.rat 100) (.rat 10) (by decide)).1,
   (lsel_reads_global_rad1 (.rat 175) (.rat 300) (.rat 200000) (.rat (3/10)) (.rat 175)
     (.rat 300) (.rat 200) (.rat 100) (.rat 10) (by decide)).2.1,
   (lsel_reads_global_rad1 (.rat 175) (.rat 300) (.rat 200000) (.rat (3/10)) (.rat 175)
     (.rat 300) (.rat 200) (.rat 100) (.rat 10) (by decide)).2.2⟩

/-- C6: there is no handler, retry or recovery branch: if a client call
raises while `pipe_plane_strain` issues its commands, the raised
exception is the solver's own, the issued trace stops right before the
offending command, the function returns that error, and the sweep loop
returns the very same error no matter how many element sizes remain — no
further remote command is issued. -/
theorem pipe_exception_propagates (s : Solver)
    (rad1 e nu inn_radius out_radius press AESIZE : RVal) (es : List RVal)
    (pre t : List Cmd) (c : Cmd) (dofs : List Nat) (stresses : List ℚ)
    (h : runSeq s pre (pipeCmds rad1 e nu inn_radius out_radius press AESIZE) =
      .error (t, c)) :
    s.raises t c = true ∧
    (∃ done rest,
      pipeCmds rad1 e nu inn_radius out_radius press AESIZE = done ++ c :: rest ∧
        t = pre ++ done) ∧
    pipe_plane_strain s rad1 e nu inn_radius out_radius press AESIZE pre =
      .error (.raised t c) ∧
    sweepRun s rad1 e nu inn_radius out_radius press (AESIZE :: es) pre dofs stresses =
      .error (.raised t c) := by
  obtain ⟨h1, h2⟩ := runSeq_error_spec s _ pre t c h
  have hp : pipe_plane_strain s rad1 e nu inn_radius out_radius press AESIZE pre =
      .error (.raised t c) := by
    unfold pipe_plane_strain
    rw [h]
  refine ⟨h1, h2, hp, ?_⟩
  rw [sweepRun, hp]

/-- A solver that raises on every `solve` call, exercising the
exception-propagation theorem. -/
def failSolver : Solver where
  raises := fun _ c => decide (c = Cmd.solve)
  nodal_eqv_stress := fun _ => [1]
  nnum_all_size := fun _ => 4

theorem pipe_exception_propagates_witness :
    runSeq failSolver [] (nb1Trace (.rat 10)) =
      .error ((nb1Trace (.rat 10)).take 27, .solve) ∧
    failSolver.raises ((nb1Trace (.rat 10)).take 27) .solve = true ∧
    pipe_plane_strain failSolver (.rat 175) (.rat 200000) (.rat (3/10)) (.rat 175)
        (.rat 200) (.rat 100) (.rat 10) [] =
      .error (.raised ((nb1Trace (.rat 10)).take 27) .solve) ∧
    sweepRun failSolver (.rat 175) (.rat 200000) (.rat (3/10)) (.rat 175) (.rat 200)
        (.rat 100) (.rat 10 :: esizes) [] [] [] =
      .error (.raised ((nb1Trace (.rat 10)).take 27) .solve) :=
  have h : runSeq failSolver [] (nb1Trace (.rat 10)) =
      .error ((nb1Trace (.rat 10)).take 27, .solve) := by rfl
  ⟨h,
   (pipe_exception_propagates failSolver (.rat 175) (.rat 200000) (.rat (3/10)) (.rat 175)
     (.rat 200) (.rat 100) (.rat 10) esizes [] _ _ [] [] h).1,
   (pipe_exception_propagates failSolver (.rat 175) (.rat 200000) (.rat (3/10)) (.rat 175)
     (.rat 200) (.rat 100) (.rat 10) esizes [] _ _ [] [] h).2.2.1,
   (pipe_exception_propagates failSolver (.rat 175) (.rat 200000) (.rat (3/10)) (.rat 175)
     (.rat 200) (.rat 100) (.rat 10) esizes [] _ _ [] [] h).2.2.2⟩

/-- C8: every invocation of `pipe_plane_strain` starts with
`mapdl.clear()` then `mapdl.prep7()` before any other command, and the
commands one sweep iteration issues (the part of the session trace beyond
what was already issued) are exactly its fixed command list — identical
regardless of which iterations preceded it, so two invocations with equal
arguments and equal global `rad1` issue equal command sequences. -/
theorem pipe_iteration_history_independent (s : Solver)
    (rad1 e nu inn_radius out_radius press AESIZE : RVal)
    (pre₁ pre₂ t₁ t₂ : List Cmd)
    (h₁ : runSeq s pre₁ (pipeCmds rad1 e nu inn_radius out_radius press AESIZE) = .ok t₁)
    (h₂ : runSeq s pre₂ (pipeCmds rad1 e nu inn_radius out_radius press AESIZE) = .ok t₂) :
    (pipeCmds rad1 e nu inn_radius out_radius press AESIZE).take 2 = [.clear, .prep7] ∧
    t₁.drop pre₁.length = pipeCmds rad1 e nu inn_radius out_radius press AESIZE ∧
    t₁.drop pre₁.length = t₂.drop pre₂.length := by
  have e₁ := runSeq_ok_spec s _ pre₁ t₁ h₁
  have e₂ := runSeq_ok_spec s _ pre₂ t₂ h₂
  subst e₁; subst e₂
  exact ⟨rfl, List.drop_left _ _, by rw [List.drop_left, List.drop_left]⟩

theorem pipe_iteration_history_independent_witness :
    runSeq okSolver [] (nb1Trace (.rat 10)) = .ok (nb1Trace (.rat 10)) ∧
    runSeq okSolver [.launch] (nb1Trace (.rat 10)) =
      .ok (.launch :: nb1Trace (.rat 10)) ∧
    ((nb1Trace (.rat 10)).take 2 = [.clear, .prep7] ∧
      (nb1Trace (.rat 10)).drop (List.length ([] : List Cmd)) = nb1Trace (.rat 10) ∧
      (nb1Trace (.rat 10)).drop (List.length ([] : List Cmd)) =
        (Cmd.launch :: nb1Trace (.rat 10)).drop (List.length [Cmd.launch])) :=
  ⟨by simpa using runSeq_ok_of_noraise okSolver (fun _ _ => rfl) (nb1Trace (.rat 10)) [],
   by simpa using runSeq_ok_of_noraise okSolver (fun _ _ => rfl) (nb1Trace (.rat 10)) [.launch],
   pipe_iteration_history_independent okSolver (.rat 175) (.rat 200000) (.rat (3/10))
     (.rat 175) (.rat 200) (.rat 100) (.rat 10) [] [.launch] (nb1Trace (.rat 10))
     (.launch :: nb1Trace (.rat 10))
     (by simpa using runSeq_ok_of_noraise okSolver (fun _ _ => rfl) (nb1Trace (.rat 10)) [])
     (by simpa using runSeq_ok_of_noraise okSolver (fun _ _ => rfl) (nb1Trace (.rat 10)) [.launch])⟩

/-- The 20 peak equivalent-stress values (MPa) printed by the recorded
run of the convergence sweep in the notebook's output cell
(702.42, 725.72, ..., 748.40, written as exact fractions). -/
def recordedMaxStress : List ℚ :=
  [70242/100, 72572/100, 72563/100, 72557/100, 72552/100, 73364/100,
   73362/100, 73775/100, 73774/100, 74025/100, 74193/100, 74313/100,
   74404/100, 74532/100, 74578/100, 74650/100, 74724/100, 74760/100,
   74812/100, 74840/100]

/-- C5 counterexample: the recorded peak-stress sequence is NOT
monotonically non-decreasing — entry 1 is 725.72 MPa and entry 2 is the
strictly smaller 725.63 MPa. -/
theorem recorded_stress_not_monotone :
    ¬ List.Pairwise (· ≤ ·) recordedMaxStress ∧
    recordedMaxStress.getD 1 0 = 72572/100 ∧
    recordedMaxStress.getD 2 0 = 72563/100 ∧
    (72563 : ℚ)/100 < 72572/100 := by
  refine ⟨?_, rfl, rfl, by norm_num⟩
  intro h
  have h12 := List.pairwise_iff_get.mp h
    ⟨1, by norm_num [recordedMaxStress]⟩ ⟨2, by norm_num [recordedMaxStress]⟩
    (by norm_num [Fin.lt_def])
  norm_num [recordedMaxStress, List.get] at h12

/-- C5 amended: the recorded sequence rises overall but not monotonically:
it has 20 entries, it starts at 702.42 MPa and ends at 748.40 MPa which
is its maximum (the finest-mesh value is the largest), the last entry
strictly exceeds the first, but the sequence contains local decreases. -/
theorem recorded_stress_overall_convergence :
    recordedMaxStress.length = 20 ∧
    recordedMaxStress.head? = some (70242/100) ∧
    recordedMaxStress.getLast? = some (74840/100) ∧
    npMax recordedMaxStress = some (74840/100) ∧
    (70242 : ℚ)/100 < 74840/100 ∧
    ¬ List.Pairwise (· ≤ ·) recordedMaxStress := by
  refine ⟨rfl, rfl, rfl, ?_, by norm_num, ?_⟩
  · norm_num [npMax, recordedMaxStress, max_def]
  · intro h
    have h12 := List.pairwise_iff_get.mp h
      ⟨1, by norm_num [recordedMaxStress]⟩ ⟨2, by norm_num [recordedMaxStress]⟩
      (by norm_num [Fin.lt_def])
    norm_num [recordedMaxStress, List.get] at h12

/-- The `cyl4` call of loop pass `i = j+1` of the plate notebook:
`cyl4(i*LENGTH/(NUM+1), WIDTH/2, RADIUS, '', '', '', 2*DEPTH)` (with the
blank optional angle arguments not modelled). -/
def cyl4Cmd (LENGTH WIDTH DEPTH RADIUS : ℚ) (NUM : Nat) (j : Nat) : Cmd :=
  Cmd.cyl4 (.rat (((j : ℚ) + 1) * LENGTH / ((NUM : ℚ) + 1))) (.rat (WIDTH / 2))
    (.rat RADIUS) (.rat (2 * DEPTH))

/-- The geometry construction of the plate notebook (Step 2 cell, after
`clear`/`prep7`): `block(0, LENGTH, 0, WIDTH, 0, DEPTH)`, then for each
`i in range(1, NUM+1)` one `cyl4` call, then `vsbv(1, 'all')`. -/
def plateGeomCmds (LENGTH WIDTH DEPTH RADIUS : ℚ) (NUM : Nat) : List Cmd :=
  Cmd.block (.rat 0) (.rat LENGTH) (.rat 0) (.rat WIDTH) (.rat 0) (.rat DEPTH) ::
    ((List.range NUM).map (cyl4Cmd LENGTH WIDTH DEPTH RADIUS NUM) ++ [Cmd.vsbv 1 "all"])

/-- Every remote command issued by the first notebook (pipe convergence
study), in program order: `launch_mapdl()`, the twenty sweep iterations at
the cell's parameter values, the element plot cell
(`allsel("ALL")`, `eplot`), the post-processing plots
(`post1`, `set(1,1)`, the two nodal plots), and `exit()`. -/
def notebook1Cmds : List Cmd :=
  Cmd.launch ::
    (catTrace nb1Trace esizes ++
      [Cmd.allsel, Cmd.eplot, Cmd.post1, Cmd.set 1 1,
       Cmd.plotNodalDisplacement, Cmd.plotNodalEqvStress, Cmd.exit])

/-- Every remote command issued by the second notebook (3D plate with
holes), in program order, at its parameter values `LENGTH = 5`,
`WIDTH = 2.5`, `DEPTH = 0.1`, `RADIUS = 0.5`, `NUM = 3`, `E = 2e11`,
`NU = 0.27`, `PRESSURE = 1000`. -/
def notebook2Cmds : List Cmd :=
  [Cmd.launch, Cmd.clear, Cmd.prep7] ++
    plateGeomCmds 5 (5/2) (1/10) (1/2) 3 ++
    [Cmd.vplot,
     Cmd.lesize "ALL" (.rat (3/20)) 1,
     Cmd.mp "ex" 1 (.rat 200000000000),
     Cmd.mp "nuxy" 1 (.rat (27/100)),
     Cmd.et 1 "SOLID186" none,
     Cmd.mshape 1 "3D",
     Cmd.mshkey 0,
     Cmd.vmesh "all",
     Cmd.eplot,
     Cmd.nsel "s" "loc" "x" (.rat 0),
     Cmd.d "all" "all" (.rat 0),
     Cmd.nsel "s" "loc" "x" (.rat 5),
     Cmd.sf "all" "pres" (.rat 1000),
     Cmd.allsel,
     Cmd.finish,
     Cmd.slashsolu,
     Cmd.solve,
     Cmd.finish,
     Cmd.resultPlot,
     Cmd.exit]

/-- Membership in a concatenated iteration trace comes from one
iteration. -/
theorem mem_catTrace (f : RVal → List Cmd) (c : Cmd) :
    ∀ es : List RVal, c ∈ catTrace f es → ∃ z ∈ es, c ∈ f z := by
  intro es
  induction es with
  | nil => intro h; simp [catTrace] at h
  | cons z rest ih =>
      intro h
      rcases List.mem_append.mp h with h1 | h1
      · exact ⟨z, List.mem_cons_self _ _, h1⟩
      · obtain ⟨w, hw, hcw⟩ := ih h1
        exact ⟨w, List.mem_cons_of_mem _ hw, hcw⟩

/-- Neither `launch_mapdl` nor `exit` occurs inside a
`pipe_plane_strain` trace. -/
theorem launch_exit_not_in_pipeCmds
    (rad1 e nu inn_radius out_radius press AESIZE : RVal) :
    Cmd.launch ∉ pipeCmds rad1 e nu inn_radius out_radius press AESIZE ∧
    Cmd.exit ∉ pipeCmds rad1 e nu inn_radius out_radius press AESIZE := by
  constructor <;> · intro h; simp [pipeCmds] at h

/-- C7: in each notebook, `launch_mapdl()` is the very first solver
command and occurs exactly once, and `mapdl.exit()` is the very last
solver command and occurs exactly once. -/
theorem session_lifecycle :
    notebook1Cmds.head? = some .launch ∧
    notebook1Cmds.count .launch = 1 ∧
    notebook1Cmds.getLast? = some .exit ∧
    notebook1Cmds.count .exit = 1 ∧
    notebook2Cmds.head? = some .launch ∧
    notebook2Cmds.count .launch = 1 ∧
    notebook2Cmds.getLast? = some .exit ∧
    notebook2Cmds.count .exit = 1 := by
  have hl : (catTrace nb1Trace esizes).count Cmd.launch = 0 := by
    rw [List.count_eq_zero]
    intro h
    obtain ⟨z, _, hz⟩ := mem_catTrace nb1Trace Cmd.launch esizes h
    exact (launch_exit_not_in_pipeCmds (.rat 175) (.rat 200000) (.rat (3/10)) (.rat 175)
      (.rat 200) (.rat 100) z).1 hz
  have he : (catTrace nb1Trace esizes).count Cmd.exit = 0 := by
    rw [List.count_eq_zero]
    intro h
    obtain ⟨z, _, hz⟩ := mem_catTrace nb1Trace Cmd.exit esizes h
    exact (launch_exit_not_in_pipeCmds (.rat 175) (.rat 200000) (.rat (3/10)) (.rat 175)
      (.rat 200) (.rat 100) z).2 hz
  refine ⟨rfl, ?_, ?_, ?_, rfl, by decide, by decide, by decide⟩
  · simp [notebook1Cmds, List.count_cons, List.count_append, hl]
  · show ((Cmd.launch :: catTrace nb1Trace esizes) ++
        (Cmd.allsel :: [Cmd.eplot, Cmd.post1, Cmd.set 1 1,
          Cmd.plotNodalDisplacement, Cmd.plotNodalEqvStress, Cmd.exit])).getLast? =
      some Cmd.exit
    rw [List.getLast?_append_cons]
    rfl
  · simp [notebook1Cmds, List.count_cons, List.count_append, he]


/-- Recognize `cyl4` commands. -/
def isCyl4 : Cmd → Bool
  | .cyl4 _ _ _ _ => true
  | _ => false

/-- Recognize `vsbv` commands. -/
def isVsbv : Cmd → Bool
  | .vsbv _ _ => true
  | _ => false

/-- C9: the plate notebook's geometry loop creates exactly NUM cylinders:
one `cyl4` per `i` from 1 to NUM with center
`(i*LENGTH/(NUM+1), WIDTH/2)`, radius RADIUS and depth `2*DEPTH`; the
centers are evenly spaced (consecutive centers differ by
`LENGTH/(NUM+1)`); and exactly one `vsbv` follows the loop, as the last
geometry command. -/
theorem plate_hole_pattern (LENGTH WIDTH DEPTH RADIUS : ℚ) (NUM : Nat) :
    (plateGeomCmds LENGTH WIDTH DEPTH RADIUS NUM).filter isCyl4 =
      (List.range NUM).map (cyl4Cmd LENGTH WIDTH DEPTH RADIUS NUM) ∧
    ((plateGeomCmds LENGTH WIDTH DEPTH RADIUS NUM).filter isCyl4).length = NUM ∧
    (∀ j, j < NUM →
      (plateGeomCmds LENGTH WIDTH DEPTH RADIUS NUM).getD (j + 1) .clear =
        Cmd.cyl4 (.rat (((j : ℚ) + 1) * LENGTH / ((NUM : ℚ) + 1))) (.rat (WIDTH / 2))
          (.rat RADIUS) (.rat (2 * DEPTH))) ∧
    (∀ j : Nat, (((j : ℚ) + 1) + 1) * LENGTH / ((NUM : ℚ) + 1) -
        ((j : ℚ) + 1) * LENGTH / ((NUM : ℚ) + 1) = LENGTH / ((NUM : ℚ) + 1)) ∧
    (plateGeomCmds LENGTH WIDTH DEPTH RADIUS NUM).filter isVsbv = [Cmd.vsbv 1 "all"] ∧
    (plateGeomCmds LENGTH WIDTH DEPTH RADIUS NUM).getLast? = some (Cmd.vsbv 1 "all") := by
  have hfil : List.filter isCyl4
      ((List.range NUM).map (cyl4Cmd LENGTH WIDTH DEPTH RADIUS NUM)) =
      (List.range NUM).map (cyl4Cmd LENGTH WIDTH DEPTH RADIUS NUM) := by
    rw [List.filter_eq_self]
    intro c hc
    obtain ⟨j, _, rfl⟩ := List.mem_map.mp hc
    rfl
  have h1 : (plateGeomCmds LENGTH WIDTH DEPTH RADIUS NUM).filter isCyl4 =
      (List.range NUM).map (cyl4Cmd LENGTH WIDTH DEPTH RADIUS NUM) := by
    simp [plateGeomCmds, List.filter_append, hfil, isCyl4]
  refine ⟨h1, by rw [h1]; simp, ?_, ?_, ?_, ?_⟩
  · intro j hj
    show ((List.range NUM).map (cyl4Cmd LENGTH WIDTH DEPTH RADIUS NUM) ++
        [Cmd.vsbv 1 "all"]).getD j .clear = _
    rw [List.getD_eq_getElem?_getD, List.getElem?_append_left (by simpa using hj),
      List.getElem?_map, List.getElem?_range hj]
    rfl
  · intro j
    rw [div_sub_div_same]
    congr 1
    ring
  · have h2 : List.filter isVsbv
        ((List.range NUM).map (cyl4Cmd LENGTH WIDTH DEPTH RADIUS NUM)) = [] := by
      rw [List.filter_eq_nil_iff]
      intro c hc
      obtain ⟨j, _, rfl⟩ := List.mem_map.mp hc
      simp [cyl4Cmd, isVsbv]
    simp [plateGeomCmds, List.filter_append, h2, isVsbv]
  · show ((Cmd.block (.rat 0) (.rat LENGTH) (.rat 0) (.rat WIDTH) (.rat 0) (.rat DEPTH) ::
        (List.range NUM).map (cyl4Cmd LENGTH WIDTH DEPTH RADIUS NUM)) ++
        (Cmd.vsbv 1 "all" :: [])).getLast? = some (Cmd.vsbv 1 "all")
    rw [List.getLast?_append_cons]
    rfl

theorem plate_hole_pattern_witness :
    1 < 3 ∧
    ((plateGeomCmds 5 (5/2) (1/10) (1/2) 3).filter isCyl4).length = 3 ∧
    (plateGeomCmds 5 (5/2) (1/10) (1/2) 3).getD 2 .clear =
      Cmd.cyl4 (.rat (5/2)) (.rat (5/4)) (.rat (1/2)) (.rat (1/5)) ∧
    (plateGeomCmds 5 (5/2) (1/10) (1/2) 3).getLast? = some (Cmd.vsbv 1 "all") :=
  ⟨by norm_num,
   (plate_hole_pattern 5 (5/2) (1/10) (1/2) 3).2.1,
   by
     have h := (plate_hole_pattern 5 (5/2) (1/10) (1/2) 3).2.2.1 1 (by norm_num)
     norm_num at h
     exact h,
   (plate_hole_pattern 5 (5/2) (1/10) (1/2) 3).2.2.2.2.2⟩

/-- The kinds of effects a notebook statement can have on the world. -/
inductive EffectClass : Type
  | sessionLifecycle
  | solverRpc
  | resultQuery
  | localPlot
  | durableStore
deriving DecidableEq, Repr

/-- Effect classification of each client call appearing in the notebooks:
`launch_mapdl`/`exit` manage the solver session; the result queries copy
solver arrays into local Python variables; the plotting calls render
locally; everything else is an RPC mutating only the in-memory state of
the solver session.  `durableStore` (file writes, databases) is the class
no notebook statement falls into. -/
def effectClass : Cmd → EffectClass
  | .launch => .sessionLifecycle
  | .exit => .sessionLifecycle
  | .queryNodalEqvStress => .resultQuery
  | .queryNnumAll => .resultQuery
  | .eplot => .localPlot
  | .vplot => .localPlot
  | .plotNodalDisplacement => .localPlot
  | .plotNodalEqvStress => .localPlot
  | .resultPlot => .localPlot
  | _ => .solverRpc

/-- C10: no statement of either notebook persists data outside the
process: every issued command is a session-lifecycle call, an in-session
solver RPC, a result query into local Python variables, or a local plot —
none is a durable-storage operation; moreover the sweep's collected
results live in the plain local lists threaded through `sweepRun`, whose
outcome is a function of the current session's solver replies alone. -/
theorem no_durable_storage :
    (notebook1Cmds ++ notebook2Cmds).filter
        (fun c => effectClass c == EffectClass.durableStore) = [] ∧
    (notebook1Cmds ++ notebook2Cmds).all
        (fun c => !(effectClass c == EffectClass.durableStore)) = true := by
  constructor
  · rw [List.filter_eq_nil_iff]
    intro c _
    cases c <;> simp [effectClass]
  · rw [List.all_eq_true]
    intro c _
    cases c <;> simp [effectClass]
